import Mathlib

/-!
Shallow embedding of the keyspaces-migrator core (src/migrator.ts,
src/fs.ts, src/types.ts) and proofs about the claims on its behaviour.

The database engine is modelled by an oracle `Oracle : String → Bool`
telling whether a given CQL statement executes successfully; the
observable behaviour of an engine call is a trace of structured events
(statement executions, tracking-table writes, and the log lines the
claims talk about), the resulting tracking-table contents, and an
`Except` result.  Store-level failures (a failing CREATE TABLE, INSERT
or DELETE on the tracking table itself) are not modelled: no claim
depends on them, and the source wraps and rethrows them unconditionally.
-/

/-- Migration definition (src/types.ts, `interface Migration`): id is the
leading digit run of the filename, `up`/`down` are the script texts. -/
structure Migration where
  id : String
  filename : String
  up : String
  down : String
deriving Repr, DecidableEq

/-- One row of the tracking table as produced by
`Migrator.getAppliedMigrations`: id, filename, and `applied_at`.
The timestamp is modelled as the `getTime()` millisecond value; a null
`applied_at` is `none` (the source reads it with `row.applied_at` and
later uses `appliedAt?.getTime() || 0`). -/
structure AppliedRecord where
  id : String
  filename : String
  appliedAt : Option Nat
deriving Repr, DecidableEq

/-- Observable events of an engine call.  Each constructor corresponds to
one effectful line of the source: `execStmt` is `client.execute(statement)`
inside `executeCQL`; `dryRunMsg` is the `[DRY RUN] Would execute: ...`
info line; `warnNoApplied` is the `No applied migrations found` warning of
`down`/`reset`; `warnMissingFile` is `reset`'s
`Migration file not found for applied migration: ...` warning;
`insertRecord` is `recordMigration`'s INSERT; `removeRecord` is
`removeMigrationRecord`'s DELETE; `resetCompleted` is `reset`'s final
`Successfully rolled back N migration(s)` success line carrying the
reported count N; `loadFile` is `FileSystemManager.loadMigrationFile`
being invoked on a file.  Log lines that carry no claim-relevant content
(e.g. `Starting migration up...`) are not traced. -/
inductive Event where
  | execStmt (stmt : String)
  | dryRunMsg (stmt : String)
  | warnNoApplied
  | warnMissingFile (filename : String)
  | insertRecord (id : String) (filename : String) (appliedAt : Nat)
  | removeRecord (id : String)
  | resetCompleted (count : Nat)
  | loadFile (filename : String)
deriving Repr, DecidableEq

/-- The error kinds raised by the source (all are `new Error(...)` in the
TypeScript; the spec names them FormatError, ExecutionError and
NotFoundError).  Each carries the piece of data the source interpolates
into the message; `errMessage` renders the message text. -/
inductive MigError where
  | formatError (filename : String)
  | loadError (filename : String)
  | executionError (stmt : String)
  | notFound (filename : String)
deriving Repr, DecidableEq

deriving instance DecidableEq for Except

/-- The message text of each error, following the source's template
strings (the underlying-cause suffix of wrapped errors is omitted: the
oracle model carries no cause payload). -/
def errMessage : MigError → String
  | .formatError f =>
      "Invalid migration filename format: " ++ f
        ++ ". Expected format: 001_migration_name.ts"
  | .loadError f => "Failed to load migration " ++ f
  | .executionError s => "Failed to execute CQL: " ++ s
  | .notFound f => "Migration file not found for applied migration: " ++ f

/-- The live database, modelled as an oracle telling whether a statement
executes successfully. -/
def Oracle : Type := String → Bool

/-!
JavaScript string primitives used by the source (`split`, `trim`,
`startsWith`, `endsWith`), implemented by structural recursion on the
character list so that every model function is computable by the
kernel.
-/

namespace JsStr

/-- `s.split(sep)` for a single-character separator: splitting the empty
string gives one empty fragment, and each separator occurrence starts a
new fragment. -/
def splitOnChar (sep : Char) : List Char → List (List Char)
  | [] => [[]]
  | c :: rest =>
    let r := splitOnChar sep rest
    if c == sep then [] :: r
    else
      match r with
      | [] => [[c]]
      | h :: t => (c :: h) :: t

/-- The whitespace class removed by `String.prototype.trim` (the common
ASCII members; the further Unicode space characters never occur in the
claims' inputs). -/
def isSpaceChar (c : Char) : Bool :=
  c == ' ' || c == '\t' || c == '\n' || c == '\r'
    || c == '\u000B' || c == '\u000C'

/-- `s.trim()`: drop whitespace from both ends. -/
def trim (cs : List Char) : List Char :=
  ((cs.dropWhile isSpaceChar).reverse.dropWhile isSpaceChar).reverse

/-- `s.startsWith(pat)`. -/
def startsWithList : List Char → List Char → Bool
  | _, [] => true
  | [], _ :: _ => false
  | c :: cs, p :: ps => c == p && startsWithList cs ps

/-- `s.endsWith(pat)`. -/
def endsWithList (s pat : List Char) : Bool :=
  startsWithList s.reverse pat.reverse

end JsStr

namespace Migrator

/-- The statement splitter of `Migrator.executeCQL` (src/migrator.ts):
split on the semicolon, trim each fragment, keep the fragments that are
nonempty and do not start with the comment token. -/
def splitStatements (cql : String) : List String :=
  (((JsStr.splitOnChar ';' cql.data).map JsStr.trim).filter
    (fun stmt =>
      stmt.length > 0 && !(JsStr.startsWithList stmt ("--").data))).map
    String.mk

/-- The statement loop of `Migrator.executeCQL`: in dry-run mode each
statement only produces an informational message; in live mode each
statement is executed in order and the first failure raises an
ExecutionError carrying the failing statement, without attempting the
remaining statements. -/
def execStatements (db : Oracle) (stmts : List String) (dryRun : Bool) :
    List Event × Except MigError Unit :=
  match stmts with
  | [] => ([], .ok ())
  | s :: rest =>
    if dryRun then
      let out := execStatements db rest dryRun
      (Event.dryRunMsg s :: out.1, out.2)
    else if db s then
      let out := execStatements db rest dryRun
      (Event.execStmt s :: out.1, out.2)
    else
      ([Event.execStmt s], .error (.executionError s))

/-- `Migrator.executeCQL` (src/migrator.ts): split the script text and run
the fragments. -/
def executeCQL (db : Oracle) (cql : String) (dryRun : Bool) :
    List Event × Except MigError Unit :=
  execStatements db (splitStatements cql) dryRun

/-- The sort key used by `down` and `reset`:
`appliedAt?.getTime() || 0`. -/
def appliedKey (r : AppliedRecord) : Nat :=
  r.appliedAt.getD 0

/-- The descending-by-`appliedAt` comparison used by `down` and `reset`
(`(a, b) => (b.appliedAt?.getTime() || 0) - (a.appliedAt?.getTime() || 0)`):
record `a` may come before record `b` when `b`'s key is at most `a`'s. -/
def appliedDescRel (a b : AppliedRecord) : Prop :=
  appliedKey b ≤ appliedKey a

instance : DecidableRel appliedDescRel :=
  fun a b => Nat.decLe (appliedKey b) (appliedKey a)

instance : IsTotal AppliedRecord appliedDescRel :=
  ⟨fun a b => Nat.le_total (appliedKey b) (appliedKey a)⟩

instance : IsTrans AppliedRecord appliedDescRel :=
  ⟨fun _ _ _ h1 h2 => Nat.le_trans h2 h1⟩

/-- The `appliedMigrations.sort(...)` call of `down`/`reset`: sort the
applied records descending by their `applied_at` key (tie order is
unspecified in the source; the model uses insertion sort). -/
def sortAppliedDesc (applied : List AppliedRecord) : List AppliedRecord :=
  List.insertionSort appliedDescRel applied

/-- `Migrator.removeMigrationRecord`: DELETE the row(s) with the given
primary key from the tracking table. -/
def removeById (applied : List AppliedRecord) (id : String) :
    List AppliedRecord :=
  applied.filter (fun r => !(r.id == id))

/-- The pending set computed by `Migrator.up`: the loaded definitions, in
load order, whose id is not in the applied-id set. -/
def upPending (defs : List Migration) (applied : List AppliedRecord) :
    List Migration :=
  defs.filter (fun m => !(applied.any (fun r => r.id == m.id)))

/-- The migration loop of `Migrator.up`: for each pending migration in
order, run its up-script; on success and if not dry-run, insert an
AppliedRecord (whose `applied_at` is `new Date()` at insert time,
modelled as `clock tick` where `tick` counts the inserts made so far in
this call); on failure rethrow, never reaching the remaining
migrations. -/
def upGo (db : Oracle) (clock : Nat → Nat) (dryRun : Bool) :
    List Migration → List AppliedRecord → Nat →
    List Event × List AppliedRecord × Except MigError Unit
  | [], applied, _ => ([], applied, .ok ())
  | m :: rest, applied, tick =>
    let out := executeCQL db m.up dryRun
    match out.2 with
    | .error e => (out.1, applied, .error e)
    | .ok _ =>
      if dryRun then
        let next := upGo db clock dryRun rest applied tick
        (out.1 ++ next.1, next.2)
      else
        let newRec : AppliedRecord := ⟨m.id, m.filename, some (clock tick)⟩
        let next := upGo db clock dryRun rest (applied ++ [newRec]) (tick + 1)
        (out.1 ++ Event.insertRecord m.id m.filename (clock tick) :: next.1,
         next.2)

/-- `Migrator.up` (src/migrator.ts): compute the pending set; if empty,
report and return; otherwise run the migration loop. -/
def up (db : Oracle) (clock : Nat → Nat) (defs : List Migration)
    (applied : List AppliedRecord) (dryRun : Bool) :
    List Event × List AppliedRecord × Except MigError Unit :=
  let pending := upPending defs applied
  if pending.isEmpty then ([], applied, .ok ())
  else upGo db clock dryRun pending applied 0

/-- `Migrator.down` (src/migrator.ts): if nothing is applied, warn and
return; otherwise sort the applied records descending by `applied_at`,
take the first as the sole rollback target, look up its definition
(raising NotFoundError when absent), run its down-script, and if not
dry-run remove its record. -/
def down (db : Oracle) (defs : List Migration)
    (applied : List AppliedRecord) (dryRun : Bool) :
    List Event × List AppliedRecord × Except MigError Unit :=
  if applied.isEmpty then ([Event.warnNoApplied], applied, .ok ())
  else
    match sortAppliedDesc applied with
    | [] => ([Event.warnNoApplied], applied, .ok ())
    | lastApplied :: _ =>
      match defs.find? (fun m => m.id == lastApplied.id) with
      | none => ([], applied, .error (.notFound lastApplied.filename))
      | some m =>
        let out := executeCQL db m.down dryRun
        match out.2 with
        | .error e => (out.1, applied, .error e)
        | .ok _ =>
          if dryRun then (out.1, applied, .ok ())
          else (out.1 ++ [Event.removeRecord m.id],
                removeById applied m.id, .ok ())

/-- The rollback loop of `Migrator.reset`: for each applied record in the
sorted order, look up its definition; if missing, warn and continue;
otherwise run its down-script (a failure rethrows, aborting the loop) and
if not dry-run remove its record. -/
def resetGo (db : Oracle) (dryRun : Bool) (defs : List Migration) :
    List AppliedRecord → List AppliedRecord →
    List Event × List AppliedRecord × Except MigError Unit
  | [], applied => ([], applied, .ok ())
  | r :: rest, applied =>
    match defs.find? (fun m => m.id == r.id) with
    | none =>
      let next := resetGo db dryRun defs rest applied
      (Event.warnMissingFile r.filename :: next.1, next.2)
    | some m =>
      let out := executeCQL db m.down dryRun
      match out.2 with
      | .error e => (out.1, applied, .error e)
      | .ok _ =>
        if dryRun then
          let next := resetGo db dryRun defs rest applied
          (out.1 ++ next.1, next.2)
        else
          let next := resetGo db dryRun defs rest (removeById applied m.id)
          (out.1 ++ Event.removeRecord m.id :: next.1, next.2)

/-- `Migrator.reset` (src/migrator.ts): if nothing is applied, warn and
return; otherwise sort the applied records descending by `applied_at`,
run the rollback loop over all of them, and on completion report
`Successfully rolled back N migration(s)` where N is the length of the
sorted applied list. -/
def reset (db : Oracle) (defs : List Migration)
    (applied : List AppliedRecord) (dryRun : Bool) :
    List Event × List AppliedRecord × Except MigError Unit :=
  if applied.isEmpty then ([Event.warnNoApplied], applied, .ok ())
  else
    let sorted := sortAppliedDesc applied
    let out := resetGo db dryRun defs sorted applied
    match out.2.2 with
    | .ok _ => (out.1 ++ [Event.resetCompleted sorted.length], out.2.1, .ok ())
    | .error e => (out.1, out.2.1, .error e)

/-- One row of the status report (src/types.ts, `MigrationStatus`). -/
structure StatusEntry where
  id : String
  filename : String
  status : String
  appliedAt : Option Nat
deriving Repr, DecidableEq

/-- The `new Map(appliedMigrations.map(m => [m.id, m]))` lookup used by
`Migrator.status`: a later entry with the same key overwrites an earlier
one, so the fold keeps the last match. -/
def appliedLookup (applied : List AppliedRecord) (id : String) :
    Option AppliedRecord :=
  applied.foldl (fun acc r => if r.id == id then some r else acc) none

/-- `Migrator.status` (src/migrator.ts): one entry per loaded definition,
in load order, classified `applied` or `pending` by the applied-id
lookup. -/
def status (defs : List Migration) (applied : List AppliedRecord) :
    List StatusEntry :=
  defs.map (fun m =>
    match appliedLookup applied m.id with
    | some r => ⟨m.id, m.filename, ("applied"), r.appliedAt⟩
    | none => ⟨m.id, m.filename, ("pending"), none⟩)

end Migrator

/-- What a migration file holds, as the loader sees it.  A `.ts` file is
obtained by dynamic `import` and is modelled by its two optional string
exports `up` and `down` (running arbitrary code is not modelled beyond
its exports); a `.cql` file is plain text. -/
inductive FileContent where
  | tsModule (upExport : Option String) (downExport : Option String)
  | text (content : String)
deriving Repr, DecidableEq

/-- A directory entry: a file name together with its content. -/
structure FileEntry where
  name : String
  content : FileContent
deriving Repr, DecidableEq

namespace FileSystemManager

/-- The extension filter of `loadMigrations`
(`file.endsWith('.ts') || file.endsWith('.cql')`). -/
def isRecognized (name : String) : Bool :=
  JsStr.endsWithList name.data (".ts").data
    || JsStr.endsWithList name.data (".cql").data

/-- Node's `path.extname` on a base name: the substring from the last
dot, or the empty string when there is no dot or the only relevant dot is
the leading character (dotfile). -/
def extname (name : String) : String :=
  let cs := name.data
  let suffixLen := (cs.reverse.takeWhile (fun c => c ≠ '.')).length
  if suffixLen = cs.length then ("")
  else
    let p := cs.length - 1 - suffixLen
    if p = 0 then ("") else String.mk (cs.drop p)

/-- The maximal leading digit run of a filename, i.e. the capture of the
`/^(\d+)/` regular expression in `extractMigrationId` (empty when the
regular expression does not match). -/
def leadingDigits (s : String) : String :=
  String.mk (s.data.takeWhile (fun c => c.isDigit))

/-- `FileSystemManager.extractMigrationId` (src/fs.ts): the leading digit
run of the filename, or a FormatError naming the file when the name does
not begin with a digit. -/
def extractMigrationId (filename : String) : Except MigError String :=
  let d := leadingDigits filename
  if d.isEmpty then .error (.formatError filename) else .ok d

/-- The section marker state of `parseCQLFile`. -/
inductive CQLSection where
  | upSec
  | downSec
deriving Repr, DecidableEq

/-- The line loop of `FileSystemManager.parseCQLFile`: a line whose trim
starts with the Up marker switches to the up section, one starting with
the Down marker switches to the down section, and any other line is
appended (plus a newline) to the current section unless no section is
open yet or its trim starts with the comment token. -/
def parseCQLGo : List (List Char) → Option CQLSection → List Char →
    List Char → List Char × List Char
  | [], _, u, d => (u, d)
  | line :: rest, cur, u, d =>
    let t := JsStr.trim line
    if JsStr.startsWithList t ("-- +migrate Up").data then
      parseCQLGo rest (some .upSec) u d
    else if JsStr.startsWithList t ("-- +migrate Down").data then
      parseCQLGo rest (some .downSec) u d
    else
      match cur with
      | none => parseCQLGo rest cur u d
      | some .upSec =>
        if JsStr.startsWithList t ("--").data then parseCQLGo rest cur u d
        else parseCQLGo rest cur (u ++ line ++ ['\n']) d
      | some .downSec =>
        if JsStr.startsWithList t ("--").data then parseCQLGo rest cur u d
        else parseCQLGo rest cur u (d ++ line ++ ['\n'])

/-- `FileSystemManager.parseCQLFile` (src/fs.ts): split into lines, run
the section loop, and fail when either section is blank. -/
def parseCQLFile (content : String) : Except String (String × String) :=
  let sections := parseCQLGo (JsStr.splitOnChar '\n' content.data) none [] []
  if (JsStr.trim sections.1).isEmpty then
    .error ("CQL migration must contain Up section")
  else if (JsStr.trim sections.2).isEmpty then
    .error ("CQL migration must contain Down section")
  else .ok (String.mk sections.1, String.mk sections.2)

/-- `FileSystemManager.loadMigrationFile` (src/fs.ts): dispatch on the
extension; a `.ts` file must export both `up` and `down` — the source's
`!migrationModule.up || !migrationModule.down` test is a JS falsy check,
so an absent export and an empty-string export both raise the error; a
`.cql` file is parsed by `parseCQLFile`; load failures are wrapped with
the filename. -/
def loadMigrationFile (e : FileEntry) (id : String) :
    Except MigError Migration :=
  let ext := extname e.name
  if ext = (".ts") then
    match e.content with
    | .tsModule (some u) (some d) =>
      if u.isEmpty || d.isEmpty then .error (.loadError e.name)
      else .ok ⟨id, e.name, u, d⟩
    | _ => .error (.loadError e.name)
  else if ext = (".cql") then
    match e.content with
    | .text s =>
      match parseCQLFile s with
      | .ok sections => .ok ⟨id, e.name, sections.1, sections.2⟩
      | .error _ => .error (.loadError e.name)
    | .tsModule _ _ => .error (.loadError e.name)
  else .error (.loadError e.name)

/-- The name comparison of `files.sort()` in `loadMigrations`:
lexicographic order on the file names. -/
def nameLe (a b : FileEntry) : Prop :=
  a.name ≤ b.name

instance : DecidableRel nameLe :=
  fun a b => inferInstanceAs (Decidable (a.name ≤ b.name))

instance : IsTotal FileEntry nameLe :=
  ⟨fun a b => le_total a.name b.name⟩

instance : IsTrans FileEntry nameLe :=
  ⟨fun _ _ _ h1 h2 => le_trans h1 h2⟩

/-- The recognized files of a directory listing, sorted by name, exactly
as `loadMigrations` enumerates them. -/
def sortedRecognized (entries : List FileEntry) : List FileEntry :=
  List.insertionSort nameLe (entries.filter (fun e => isRecognized e.name))

/-- The per-file loop of `loadMigrations`: extract the id from the name
(a failure there propagates before the file is ever loaded), then load
the file (emitting a `loadFile` event for the attempt); any failure
aborts the loop, so no later file is loaded and no partial list is
returned. -/
def loadGo : List FileEntry →
    List Event × Except MigError (List Migration)
  | [] => ([], .ok [])
  | e :: rest =>
    match extractMigrationId e.name with
    | .error err => ([], .error err)
    | .ok id =>
      match loadMigrationFile e id with
      | .error err => ([Event.loadFile e.name], .error err)
      | .ok m =>
        let next := loadGo rest
        match next.2 with
        | .error err => (Event.loadFile e.name :: next.1, .error err)
        | .ok ms => (Event.loadFile e.name :: next.1, .ok (m :: ms))

/-- `FileSystemManager.loadMigrations` (src/fs.ts): a missing directory
(`none`) yields an empty list with a warning; otherwise filter the
listing to recognized extensions, sort by name, and run the per-file
loop. -/
def loadMigrations (dir : Option (List FileEntry)) :
    List Event × Except MigError (List Migration) :=
  match dir with
  | none => ([], .ok [])
  | some entries => loadGo (sortedRecognized entries)

end FileSystemManager

/-!
Verification-layer definitions: the observable quantities the claims
talk about, and the closed forms used by the characterization
theorems.
-/

/-- A script executes fully under the oracle when every one of its
fragments succeeds. -/
def scriptOk (db : Oracle) (script : String) : Bool :=
  (Migrator.splitStatements script).all db

/-- The first failing fragment of a script (meaningful when `scriptOk`
is false). -/
def failStmt (db : Oracle) (script : String) : String :=
  ((Migrator.splitStatements script).dropWhile db).headI

/-- The trace produced by running a failing script live: the successful
fragments in order, then the attempt of the first failing one. -/
def failTrace (db : Oracle) (script : String) : List Event :=
  ((Migrator.splitStatements script).takeWhile db).map Event.execStmt
    ++ [Event.execStmt (failStmt db script)]

/-- The trace of `up`'s loop over migrations that all succeed, starting
at insertion counter `tick`: each migration's statements in order,
followed by its tracking-table insert. -/
def upTraceFor (clock : Nat → Nat) : Nat → List Migration → List Event
  | _, [] => []
  | tick, m :: rest =>
    (Migrator.splitStatements m.up).map Event.execStmt
      ++ Event.insertRecord m.id m.filename (clock tick)
        :: upTraceFor clock (tick + 1) rest

/-- The tracking-table rows inserted by `up` for a run of successful
migrations starting at insertion counter `tick`. -/
def newRecordsFor (clock : Nat → Nat) : Nat → List Migration →
    List AppliedRecord
  | _, [] => []
  | tick, m :: rest =>
    ⟨m.id, m.filename, some (clock tick)⟩ :: newRecordsFor clock (tick + 1) rest

/-- An applied record lets `reset`'s loop continue past it: either its
definition is missing (warn-and-skip) or its down-script runs fully. -/
def recOk (db : Oracle) (defs : List Migration) (r : AppliedRecord) : Bool :=
  match defs.find? (fun m => m.id == r.id) with
  | none => true
  | some m => scriptOk db m.down

/-- The trace of `reset`'s loop over records it gets past: a warning for
each record without a definition, and the down-script statements followed
by the record removal for each found one. -/
def resetTraceFor (db : Oracle) (defs : List Migration) :
    List AppliedRecord → List Event
  | [] => []
  | r :: rest =>
    match defs.find? (fun m => m.id == r.id) with
    | none => Event.warnMissingFile r.filename :: resetTraceFor db defs rest
    | some m =>
      (Migrator.splitStatements m.down).map Event.execStmt
        ++ Event.removeRecord m.id :: resetTraceFor db defs rest

/-- The tracking table after `reset`'s loop has processed the given
records: each record with a found definition has been removed. -/
def resetRemovals (defs : List Migration) :
    List AppliedRecord → List AppliedRecord → List AppliedRecord
  | [], applied => applied
  | r :: rest, applied =>
    match defs.find? (fun m => m.id == r.id) with
    | none => resetRemovals defs rest applied
    | some m => resetRemovals defs rest (Migrator.removeById applied m.id)

/-- The trace and error with which `reset`'s loop aborts at a record
whose down-script fails (the `none` arm is never reached when the record
is the first not satisfying `recOk`). -/
def recFailOut (db : Oracle) (defs : List Migration) (r : AppliedRecord) :
    List Event × MigError :=
  match defs.find? (fun m => m.id == r.id) with
  | none => ([], .executionError (""))
  | some m => (failTrace db m.down, .executionError (failStmt db m.down))

/-- The number of tracking-table removals in a trace, i.e. the number of
migrations actually rolled back. -/
def removeCount (tr : List Event) : Nat :=
  tr.countP (fun e => match e with
    | .removeRecord _ => true
    | _ => false)

/-- The count carried by the first completion message of a trace, i.e.
the N of `Successfully rolled back N migration(s)`. -/
def reportedResetCount (tr : List Event) : Option Nat :=
  tr.findSome? (fun e => match e with
    | .resetCompleted n => some n
    | _ => none)

/-- A file gets past `loadMigrations`' per-file step: its name yields an
id and its content loads. -/
def entryOk (e : FileEntry) : Bool :=
  match FileSystemManager.extractMigrationId e.name with
  | .error _ => false
  | .ok id =>
    match FileSystemManager.loadMigrationFile e id with
    | .ok _ => true
    | .error _ => false

/-- Modelled from the spec words of claim C3: a fragment is a pure
comment line when every one of its lines is blank or starts with the
comment token after trimming. -/
def specIsPureComment (stmt : List Char) : Bool :=
  ((JsStr.splitOnChar '\n' stmt).map JsStr.trim).all
    (fun l => l.isEmpty || JsStr.startsWithList l ("--").data)

/-- Modelled from the spec words of claim C3: the fragments the claim
says the executor retains — split on the terminator, trim, and discard
exactly the empty fragments and the pure-comment fragments. -/
def specRetainedStatements (cql : String) : List String :=
  (((JsStr.splitOnChar ';' cql.data).map JsStr.trim).filter
    (fun stmt => !stmt.isEmpty && !specIsPureComment stmt)).map String.mk

/-!
Characterization lemmas shared by the claim theorems.
-/

/-- In dry-run mode the statement loop only emits one informational
message per fragment and always succeeds. -/
theorem execStatements_dry (db : Oracle) (stmts : List String) :
    Migrator.execStatements db stmts true
      = (stmts.map Event.dryRunMsg, .ok ()) := by
  induction stmts with
  | nil => rfl
  | cons s rest ih => simp [Migrator.execStatements, ih]

/-- In live mode the statement loop executes the fragments in order up to
and including the first failing one, raising an ExecutionError carrying
that fragment, and succeeds after executing all of them when none
fails. -/
theorem execStatements_live (db : Oracle) (stmts : List String) :
    Migrator.execStatements db stmts false
      = (match stmts.dropWhile db with
         | [] => (stmts.map Event.execStmt, .ok ())
         | bad :: _ =>
           ((stmts.takeWhile db).map Event.execStmt ++ [Event.execStmt bad],
            .error (.executionError bad))) := by
  induction stmts with
  | nil => rfl
  | cons s rest ih =>
    by_cases h : db s
    · simp only [Migrator.execStatements, Bool.false_eq_true, if_false, h,
        if_true, ih, List.dropWhile_cons, List.takeWhile_cons]
      cases hd : rest.dropWhile db <;> simp [h, hd]
    · simp [Migrator.execStatements, h, List.dropWhile_cons,
        List.takeWhile_cons]

/-- A script runs fully iff no fragment remains after dropping the
successful ones. -/
theorem scriptOk_iff (db : Oracle) (script : String) :
    scriptOk db script = true
      ↔ (Migrator.splitStatements script).dropWhile db = [] := by
  rw [scriptOk, List.all_eq_true, List.dropWhile_eq_nil_iff]

/-- Running a script live: the whole script and success when every
fragment succeeds, otherwise the fail-fast trace and the ExecutionError
of the first failing fragment. -/
theorem executeCQL_live (db : Oracle) (script : String) :
    Migrator.executeCQL db script false
      = (if scriptOk db script then
           ((Migrator.splitStatements script).map Event.execStmt, .ok ())
         else
           (failTrace db script,
            .error (.executionError (failStmt db script)))) := by
  rw [Migrator.executeCQL, execStatements_live]
  by_cases h : scriptOk db script
  · rw [if_pos h, (scriptOk_iff db script).mp h]
  · rw [if_neg h]
    cases hd : (Migrator.splitStatements script).dropWhile db with
    | nil => exact absurd ((scriptOk_iff db script).mpr hd) h
    | cons bad tl => simp [failTrace, failStmt, hd]

/-- The dry-run migration loop of `up`: one informational message per
fragment of each pending migration, no writes, success. -/
theorem upGo_dry (db : Oracle) (clock : Nat → Nat) :
    ∀ (pending : List Migration) (applied : List AppliedRecord) (tick : Nat),
    Migrator.upGo db clock true pending applied tick
      = (pending.flatMap
           (fun m => (Migrator.splitStatements m.up).map Event.dryRunMsg),
         applied, .ok ()) := by
  intro pending
  induction pending with
  | nil => intro applied tick; rfl
  | cons m rest ih =>
    intro applied tick
    simp [Migrator.upGo, Migrator.executeCQL, execStatements_dry, ih]

/-- The live migration loop of `up`: migrations are attempted strictly
in order; each fully successful migration contributes its statements and
then its tracking-table insert; the first failing migration contributes
its fail-fast trace and aborts with its error, and the migrations after
it contribute nothing. -/
theorem upGo_live (db : Oracle) (clock : Nat → Nat) :
    ∀ (pending : List Migration) (applied : List AppliedRecord) (tick : Nat),
    Migrator.upGo db clock false pending applied tick
      = (match pending.dropWhile (fun m => scriptOk db m.up) with
         | [] =>
           (upTraceFor clock tick pending,
            applied ++ newRecordsFor clock tick pending, .ok ())
         | bad :: _ =>
           (upTraceFor clock tick
               (pending.takeWhile (fun m => scriptOk db m.up))
              ++ failTrace db bad.up,
            applied ++ newRecordsFor clock tick
              (pending.takeWhile (fun m => scriptOk db m.up)),
            .error (.executionError (failStmt db bad.up)))) := by
  intro pending
  induction pending with
  | nil => intro applied tick; simp [Migrator.upGo, upTraceFor, newRecordsFor]
  | cons m rest ih =>
    intro applied tick
    by_cases h : scriptOk db m.up
    · simp only [Migrator.upGo, executeCQL_live, if_pos h,
        List.dropWhile_cons, List.takeWhile_cons, h, if_true, ih,
        Bool.false_eq_true, if_false]
      cases hd : rest.dropWhile (fun m => scriptOk db m.up) with
      | nil => simp [upTraceFor, newRecordsFor, hd]
      | cons bad tl => simp [upTraceFor, newRecordsFor, hd]
    · simp only [Migrator.upGo, executeCQL_live, if_neg h,
        List.dropWhile_cons, List.takeWhile_cons, h,
        Bool.false_eq_true, if_false]
      simp [upTraceFor, newRecordsFor]

/-- Closed form of the live `down` call: on an empty applied-set it only
warns; otherwise the head of the descending sort is the sole target —
a missing definition aborts with the NotFoundError, a found one has its
down-script run, with the record removed on success and the error
propagated on failure. -/
theorem down_live (db : Oracle) (defs : List Migration)
    (applied : List AppliedRecord) :
    Migrator.down db defs applied false
      = (match Migrator.sortAppliedDesc applied with
         | [] => ([Event.warnNoApplied], applied, .ok ())
         | target :: _ =>
           match defs.find? (fun m => m.id == target.id) with
           | none => ([], applied, .error (.notFound target.filename))
           | some m =>
             if scriptOk db m.down then
               ((Migrator.splitStatements m.down).map Event.execStmt
                  ++ [Event.removeRecord m.id],
                Migrator.removeById applied m.id, .ok ())
             else
               (failTrace db m.down, applied,
                .error (.executionError (failStmt db m.down)))) := by
  cases applied with
  | nil => rfl
  | cons a l =>
    simp only [Migrator.down, List.isEmpty_cons, Bool.false_eq_true, if_false]
    cases hs : Migrator.sortAppliedDesc (a :: l) with
    | nil => rfl
    | cons target rest =>
      cases hf : defs.find? (fun m => m.id == target.id) with
      | none => simp [hf]
      | some m =>
        simp only [hf, executeCQL_live]
        by_cases h : scriptOk db m.down
        · simp [h]
        · simp [h]

/-- The rollback loop of `reset`, live: records are processed strictly
in the given order; a record without a definition contributes a warning
and is skipped; a record whose down-script runs fully contributes its
statements and its removal; the first record whose down-script fails
aborts the loop with that error, keeping the removals made so far and
processing no further record. -/
theorem resetGo_live (db : Oracle) (defs : List Migration) :
    ∀ (rs applied : List AppliedRecord),
    Migrator.resetGo db false defs rs applied
      = (match rs.dropWhile (recOk db defs) with
         | [] =>
           (resetTraceFor db defs rs, resetRemovals defs rs applied, .ok ())
         | bad :: _ =>
           (resetTraceFor db defs (rs.takeWhile (recOk db defs))
              ++ (recFailOut db defs bad).1,
            resetRemovals defs (rs.takeWhile (recOk db defs)) applied,
            .error (recFailOut db defs bad).2)) := by
  intro rs
  induction rs with
  | nil => intro applied; simp [Migrator.resetGo, resetTraceFor, resetRemovals]
  | cons r rest ih =>
    intro applied
    cases hf : defs.find? (fun m => m.id == r.id) with
    | none =>
      have hok : recOk db defs r = true := by simp [recOk, hf]
      simp only [Migrator.resetGo, hf, ih, List.dropWhile_cons,
        List.takeWhile_cons, hok, if_true]
      cases hd : rest.dropWhile (recOk db defs) with
      | nil => simp [resetTraceFor, resetRemovals, hf, hd]
      | cons bad tl => simp [resetTraceFor, resetRemovals, hf, hd]
    | some m =>
      by_cases h : scriptOk db m.down
      · have hok : recOk db defs r = true := by simp [recOk, hf, h]
        simp only [Migrator.resetGo, hf, executeCQL_live, if_pos h, ih,
          List.dropWhile_cons, List.takeWhile_cons, hok, if_true,
          Bool.false_eq_true, if_false]
        cases hd : rest.dropWhile (recOk db defs) with
        | nil => simp [resetTraceFor, resetRemovals, hf, hd]
        | cons bad tl => simp [resetTraceFor, resetRemovals, hf, hd]
      · have hok : recOk db defs r = false := by simp [recOk, hf, h]
        simp only [Migrator.resetGo, hf, executeCQL_live, if_neg h,
          List.dropWhile_cons, List.takeWhile_cons, hok,
          Bool.false_eq_true, if_false]
        simp [resetTraceFor, resetRemovals, recFailOut, hf]

/-- The descending sort permutes the applied records. -/
theorem sortAppliedDesc_perm (l : List AppliedRecord) :
    (Migrator.sortAppliedDesc l).Perm l :=
  List.perm_insertionSort Migrator.appliedDescRel l

/-- The descending sort is sorted for the descending-key relation. -/
theorem sortAppliedDesc_sorted (l : List AppliedRecord) :
    List.Sorted Migrator.appliedDescRel (Migrator.sortAppliedDesc l) :=
  List.sorted_insertionSort Migrator.appliedDescRel l

/-- The head of the descending sort is an applied record of maximal
key. -/
theorem sortAppliedDesc_head_max (l : List AppliedRecord)
    (target : AppliedRecord) (rest : List AppliedRecord)
    (h : Migrator.sortAppliedDesc l = target :: rest) :
    target ∈ l ∧
      ∀ r ∈ l, Migrator.appliedKey r ≤ Migrator.appliedKey target := by
  have hperm := sortAppliedDesc_perm l
  rw [h] at hperm
  refine ⟨hperm.mem_iff.mp (List.mem_cons_self target rest), ?_⟩
  intro r hr
  rcases List.mem_cons.mp (hperm.mem_iff.mpr hr) with h1 | h1
  · rw [h1]
  · have hsorted := sortAppliedDesc_sorted l
    rw [h] at hsorted
    exact (List.sorted_cons.mp hsorted).1 r h1

/-- Executed statements in front of a trace do not carry a completion
count. -/
theorem reportedResetCount_execs (stmts : List String) (tr : List Event) :
    reportedResetCount (stmts.map Event.execStmt ++ tr)
      = reportedResetCount tr := by
  induction stmts with
  | nil => rfl
  | cons s rest ih => simpa [reportedResetCount] using ih

/-- Executed statements in front of a trace are not removals. -/
theorem removeCount_execs (stmts : List String) (tr : List Event) :
    removeCount (stmts.map Event.execStmt ++ tr) = removeCount tr := by
  induction stmts with
  | nil => rfl
  | cons s rest ih => simp [removeCount, List.countP_cons]

/-- The completion count read off a loop trace followed by the
completion message is the message's count. -/
theorem reportedResetCount_loop (db : Oracle) (defs : List Migration) :
    ∀ (rs : List AppliedRecord) (n : Nat),
    reportedResetCount (resetTraceFor db defs rs ++ [Event.resetCompleted n])
      = some n := by
  intro rs
  induction rs with
  | nil => intro n; rfl
  | cons r rest ih =>
    intro n
    cases hf : defs.find? (fun m => m.id == r.id) with
    | none => simpa [resetTraceFor, hf, reportedResetCount] using ih n
    | some m =>
      simp only [resetTraceFor, hf, List.append_assoc, List.cons_append,
        reportedResetCount_execs]
      simpa [reportedResetCount] using ih n

/-- The number of removals in the loop trace over records it gets past is
the number of those records whose definition is found. -/
theorem removeCount_loop (db : Oracle) (defs : List Migration) :
    ∀ (rs : List AppliedRecord),
    removeCount (resetTraceFor db defs rs)
      = rs.countP (fun r => (defs.find? (fun m => m.id == r.id)).isSome) := by
  intro rs
  induction rs with
  | nil => rfl
  | cons r rest ih =>
    cases hf : defs.find? (fun m => m.id == r.id) with
    | none =>
      simpa [resetTraceFor, hf, removeCount, List.countP_cons] using ih
    | some m =>
      have h2 := removeCount_execs (Migrator.splitStatements m.down)
        (Event.removeRecord m.id :: resetTraceFor db defs rest)
      simp only [resetTraceFor, hf]
      rw [show (Migrator.splitStatements m.down).map Event.execStmt
            ++ Event.removeRecord m.id :: resetTraceFor db defs rest
          = (Migrator.splitStatements m.down).map Event.execStmt
            ++ (Event.removeRecord m.id :: resetTraceFor db defs rest) from rfl,
        h2]
      simp only [removeCount] at ih
      simp only [removeCount, List.countP_cons, ih, hf, Option.isSome_some,
        if_true]

/-- A completion message at the end of a trace is not a removal. -/
theorem removeCount_completed (tr : List Event) (n : Nat) :
    removeCount (tr ++ [Event.resetCompleted n]) = removeCount tr := by
  simp [removeCount, List.countP_append, List.countP_cons]

/-- The per-file loop aborts at the first entry that fails, when that
entry's name lacks a leading digit run: exactly the files before it (in
processing order) are loaded, no later file and not the failing one, and
the loop fails with the FormatError naming that entry — no partial list
is returned. -/
theorem loadGo_format_fail (bad : FileEntry) (tl : List FileEntry)
    (hbad : FileSystemManager.leadingDigits bad.name = ("")) :
    ∀ files : List FileEntry,
    files.dropWhile entryOk = bad :: tl →
    FileSystemManager.loadGo files
      = ((files.takeWhile entryOk).map (fun e => Event.loadFile e.name),
         .error (.formatError bad.name)) := by
  intro files
  induction files with
  | nil => intro hsplit; simp at hsplit
  | cons e rest ih =>
    intro hsplit
    by_cases he : entryOk e = true
    · rw [List.dropWhile_cons, if_pos he] at hsplit
      have he2 := he
      rw [entryOk] at he2
      cases hx : FileSystemManager.extractMigrationId e.name with
      | error err => simp [hx] at he2
      | ok id =>
        cases hl : FileSystemManager.loadMigrationFile e id with
        | error err => simp [hx, hl] at he2
        | ok m =>
          simp only [FileSystemManager.loadGo, hx, hl, ih hsplit,
            List.takeWhile_cons, he, if_true, List.map_cons]
    · rw [List.dropWhile_cons, if_neg he] at hsplit
      have hebad : e = bad := by injection hsplit
      subst hebad
      have hx : FileSystemManager.extractMigrationId e.name
          = .error (.formatError e.name) := by
        simp only [FileSystemManager.extractMigrationId, hbad]
        rw [if_pos (by decide : ("").isEmpty = true)]
      simp [FileSystemManager.loadGo, hx, List.takeWhile_cons, he]

/-!
Claim theorems.
-/

/-- C1, counterexample: with one applied record and no loaded definition,
`reset(dryRun=false)` over this non-empty applied-set completes with the
message `Successfully rolled back 1 migration(s)` although zero
migrations were rolled back (the single record was skipped with a
warning), so the reported count does not equal the number of migrations
successfully rolled back. -/
theorem C1_reset_count_counterexample :
    Migrator.reset (fun _ => true) []
        [⟨("001"), ("001_a.cql"), some 5⟩] false
      = ([Event.warnMissingFile ("001_a.cql"), Event.resetCompleted 1],
         [⟨("001"), ("001_a.cql"), some 5⟩], .ok ()) ∧
    reportedResetCount
        [Event.warnMissingFile ("001_a.cql"), Event.resetCompleted 1]
      = some 1 ∧
    removeCount
        [Event.warnMissingFile ("001_a.cql"), Event.resetCompleted 1] = 0 := by
  refine ⟨by decide, by decide, by decide⟩

/-- C1, amended: for every completing `reset(dryRun=false)` call over a
non-empty applied-set, the count in the completion message equals the
total number of applied records — including those skipped with a
warning — while the number of migrations actually rolled back equals the
number of applied records whose id matches a loaded definition. -/
theorem C1_reset_count_amended (db : Oracle) (defs : List Migration)
    (applied : List AppliedRecord) (h : applied ≠ [])
    (hok : (Migrator.reset db defs applied false).2.2 = .ok ()) :
    reportedResetCount (Migrator.reset db defs applied false).1
        = some applied.length ∧
    removeCount (Migrator.reset db defs applied false).1
        = applied.countP
            (fun r => (defs.find? (fun m => m.id == r.id)).isSome) := by
  have hne : applied.isEmpty = false := by
    cases applied with
    | nil => exact absurd rfl h
    | cons a l => rfl
  simp only [Migrator.reset, hne, Bool.false_eq_true, if_false,
    resetGo_live] at hok ⊢
  cases hd : (Migrator.sortAppliedDesc applied).dropWhile (recOk db defs) with
  | nil =>
    simp only [hd]
    constructor
    · rw [reportedResetCount_loop,
        (sortAppliedDesc_perm applied).length_eq]
    · rw [removeCount_completed, removeCount_loop,
        (sortAppliedDesc_perm applied).countP_eq]
  | cons bad tl =>
    rw [hd] at hok
    simp at hok

/-- C2 (confirmed): in dry-run mode, `up` and `down` leave the tracking
table untouched and produce no statement execution, no insert and no
remove: the trace holds exactly one informational message per fragment
of the scripts that would run (plus `down`'s empty-state warning or
missing-definition error, which also execute nothing). -/
theorem C2_dry_run_purity (db : Oracle) (clock : Nat → Nat)
    (defs : List Migration) (applied : List AppliedRecord) :
    Migrator.up db clock defs applied true
        = ((Migrator.upPending defs applied).flatMap
             (fun m => (Migrator.splitStatements m.up).map Event.dryRunMsg),
           applied, .ok ()) ∧
    Migrator.down db defs applied true
        = (match Migrator.sortAppliedDesc applied with
           | [] => ([Event.warnNoApplied], applied, .ok ())
           | target :: _ =>
             match defs.find? (fun m => m.id == target.id) with
             | none => ([], applied, .error (.notFound target.filename))
             | some m =>
               ((Migrator.splitStatements m.down).map Event.dryRunMsg,
                applied, .ok ())) := by
  constructor
  · cases hq : Migrator.upPending defs applied with
    | nil => simp [Migrator.up, hq]
    | cons m rest => simp [Migrator.up, hq, upGo_dry]
  · cases applied with
    | nil => rfl
    | cons a l =>
      simp only [Migrator.down, List.isEmpty_cons, Bool.false_eq_true,
        if_false]
      cases hs : Migrator.sortAppliedDesc (a :: l) with
      | nil => rfl
      | cons target rest =>
        cases hf : defs.find? (fun m => m.id == target.id) with
        | none => simp [hf]
        | some m =>
          simp [hf, Migrator.executeCQL, execStatements_dry]

/-- C3, counterexample: the fragment of this script is neither empty nor
a pure comment line (its second line is a CREATE TABLE statement), so
the claim says it is retained; the executor discards it because its
trimmed text starts with the comment token, and executes nothing. -/
theorem C3_executor_counterexample :
    specRetainedStatements ("-- note\nCREATE TABLE t (id int);")
        = [("-- note\nCREATE TABLE t (id int)")] ∧
    Migrator.splitStatements ("-- note\nCREATE TABLE t (id int);") = [] ∧
    Migrator.executeCQL (fun _ => true)
        ("-- note\nCREATE TABLE t (id int);") false = ([], .ok ()) := by
  refine ⟨by decide, by decide, by decide⟩

/-- C3, amended: the executor splits the script on the
statement-terminator character, trims whitespace from each fragment,
discards the empty fragments and every fragment whose trimmed text
starts with the comment token (not only pure comment lines), and
executes the remaining fragments strictly in textual order, stopping at
the first execution failure without attempting the remaining
fragments. -/
theorem C3_executor_amended (db : Oracle) (cql : String) :
    Migrator.executeCQL db cql false
      = (match (Migrator.splitStatements cql).dropWhile db with
         | [] => ((Migrator.splitStatements cql).map Event.execStmt, .ok ())
         | bad :: _ =>
           (((Migrator.splitStatements cql).takeWhile db).map Event.execStmt
              ++ [Event.execStmt bad],
            .error (.executionError bad))) :=
  execStatements_live db (Migrator.splitStatements cql)

/-- C4 (confirmed): `up(dryRun=false)` attempts the pending migrations
one at a time in load order; each fully successful migration's
statements are followed immediately by its tracking-table insert before
the next migration's first statement; the first failing migration
aborts with its ExecutionError, every migration after it contributes
nothing to the trace, and the records of the earlier successes remain
inserted. -/
theorem C4_up_fail_fast (db : Oracle) (clock : Nat → Nat)
    (defs : List Migration) (applied : List AppliedRecord) :
    Migrator.up db clock defs applied false
      = (match (Migrator.upPending defs applied).dropWhile
            (fun m => scriptOk db m.up) with
         | [] =>
           (upTraceFor clock 0 (Migrator.upPending defs applied),
            applied ++ newRecordsFor clock 0 (Migrator.upPending defs applied),
            .ok ())
         | bad :: _ =>
           (upTraceFor clock 0
               ((Migrator.upPending defs applied).takeWhile
                 (fun m => scriptOk db m.up))
              ++ failTrace db bad.up,
            applied ++ newRecordsFor clock 0
              ((Migrator.upPending defs applied).takeWhile
                (fun m => scriptOk db m.up)),
            .error (.executionError (failStmt db bad.up)))) := by
  cases hq : Migrator.upPending defs applied with
  | nil => simp [Migrator.up, hq, upTraceFor, newRecordsFor]
  | cons m rest => simp [Migrator.up, hq, upGo_live]

/-- C5 (confirmed): on a non-empty applied-set, `down(dryRun=false)`
takes the head of the descending sort — an applied record of maximal
`appliedAt` key — as its sole rollback target; when no loaded definition
carries that record's id the whole call aborts with the NotFoundError
naming the record, and otherwise only that target's down-script and
record are touched. -/
theorem C5_down_target (db : Oracle) (defs : List Migration)
    (applied : List AppliedRecord) (h : applied ≠ []) :
    ∃ target rest,
      Migrator.sortAppliedDesc applied = target :: rest ∧
      target ∈ applied ∧
      (∀ r ∈ applied, Migrator.appliedKey r ≤ Migrator.appliedKey target) ∧
      Migrator.down db defs applied false
        = (match defs.find? (fun m => m.id == target.id) with
           | none => ([], applied, .error (.notFound target.filename))
           | some m =>
             if scriptOk db m.down then
               ((Migrator.splitStatements m.down).map Event.execStmt
                  ++ [Event.removeRecord m.id],
                Migrator.removeById applied m.id, .ok ())
             else
               (failTrace db m.down, applied,
                .error (.executionError (failStmt db m.down)))) := by
  cases hs : Migrator.sortAppliedDesc applied with
  | nil =>
    exfalso
    have hlen := (sortAppliedDesc_perm applied).length_eq
    rw [hs] at hlen
    cases applied with
    | nil => exact h rfl
    | cons a l => simp at hlen
  | cons target rest =>
    obtain ⟨hmem, hmax⟩ := sortAppliedDesc_head_max applied target rest hs
    refine ⟨target, rest, rfl, hmem, hmax, ?_⟩
    rw [down_live, hs]

/-- C6 (confirmed): `reset(dryRun=false)` over a non-empty applied-set
processes the applied records in descending `appliedAt` order (the
processed list is sorted for the descending-key relation and permutes
the applied-set); a record without a matching definition contributes a
warning and the loop continues with the next record; the first record
whose down-script fails aborts the whole call with that ExecutionError,
keeping the removals of the records already rolled back and touching no
further record. -/
theorem C6_reset_order (db : Oracle) (defs : List Migration)
    (applied : List AppliedRecord) (h : applied ≠ []) :
    (Migrator.sortAppliedDesc applied).Perm applied ∧
    List.Sorted Migrator.appliedDescRel (Migrator.sortAppliedDesc applied) ∧
    Migrator.reset db defs applied false
      = (match (Migrator.sortAppliedDesc applied).dropWhile (recOk db defs)
         with
         | [] =>
           (resetTraceFor db defs (Migrator.sortAppliedDesc applied)
              ++ [Event.resetCompleted
                    (Migrator.sortAppliedDesc applied).length],
            resetRemovals defs (Migrator.sortAppliedDesc applied) applied,
            .ok ())
         | bad :: _ =>
           (resetTraceFor db defs
               ((Migrator.sortAppliedDesc applied).takeWhile (recOk db defs))
              ++ (recFailOut db defs bad).1,
            resetRemovals defs
              ((Migrator.sortAppliedDesc applied).takeWhile (recOk db defs))
              applied,
            .error (recFailOut db defs bad).2)) := by
  refine ⟨sortAppliedDesc_perm applied, sortAppliedDesc_sorted applied, ?_⟩
  have hne : applied.isEmpty = false := by
    cases applied with
    | nil => exact absurd rfl h
    | cons a l => rfl
  simp only [Migrator.reset, hne, Bool.false_eq_true, if_false, resetGo_live]
  cases hd : (Migrator.sortAppliedDesc applied).dropWhile (recOk db defs) with
  | nil => simp [hd]
  | cons bad tl => simp [hd]

/-- C7 (confirmed): a round trip over one migration whose scripts
execute successfully — starting from an empty applied-set, a non-dry-run
`up` succeeds and `status` then classifies the migration as applied;
after a subsequent successful non-dry-run `down`, `status` classifies it
as pending again and the tracking table is back to its pre-apply empty
state. -/
theorem C7_round_trip (db : Oracle) (clock : Nat → Nat) (m : Migration)
    (hup : scriptOk db m.up = true) (hdown : scriptOk db m.down = true) :
    (Migrator.up db clock [m] [] false).2.2 = .ok () ∧
    (Migrator.status [m] (Migrator.up db clock [m] [] false).2.1).map
        (fun s => s.status) = [("applied")] ∧
    (Migrator.down db [m] (Migrator.up db clock [m] [] false).2.1 false).2.2
        = .ok () ∧
    (Migrator.status [m]
        (Migrator.down db [m] (Migrator.up db clock [m] [] false).2.1
          false).2.1).map (fun s => s.status) = [("pending")] ∧
    (Migrator.down db [m] (Migrator.up db clock [m] [] false).2.1 false).2.1
        = [] := by
  have hup1 : Migrator.up db clock [m] [] false
      = ((Migrator.splitStatements m.up).map Event.execStmt
           ++ [Event.insertRecord m.id m.filename (clock 0)],
         [⟨m.id, m.filename, some (clock 0)⟩], .ok ()) := by
    simp [Migrator.up, Migrator.upPending, Migrator.upGo, executeCQL_live,
      hup]
  have hdown1 :
      Migrator.down db [m] [⟨m.id, m.filename, some (clock 0)⟩] false
        = ((Migrator.splitStatements m.down).map Event.execStmt
             ++ [Event.removeRecord m.id], [], .ok ()) := by
    rw [down_live]
    have hsort :
        Migrator.sortAppliedDesc [⟨m.id, m.filename, some (clock 0)⟩]
          = [⟨m.id, m.filename, some (clock 0)⟩] := rfl
    rw [hsort]
    simp [hdown, Migrator.removeById]
  have hstA : Migrator.status [m] [⟨m.id, m.filename, some (clock 0)⟩]
      = [⟨m.id, m.filename, ("applied"), some (clock 0)⟩] := by
    simp [Migrator.status, Migrator.appliedLookup]
  refine ⟨by rw [hup1], ?_, ?_, ?_, ?_⟩
  · rw [hup1]
    simp [hstA]
  · rw [hup1]
    simp [hdown1]
  · rw [hup1]
    simp only [hdown1]
    rfl
  · rw [hup1]
    simp [hdown1]

/-- C8 (confirmed): `down` and `reset` over an empty applied-set only
emit the warning and return successfully, writing nothing to the
tracking table (the trace holds no insert, no remove and no executed
statement); in particular a reset that observed zero applied migrations
leaves the applied-set empty, so a second consecutive `reset` takes the
same warning path. -/
theorem C8_empty_state (db db2 : Oracle) (defs defs2 : List Migration)
    (dr dr2 : Bool) :
    Migrator.down db defs [] dr = ([Event.warnNoApplied], [], .ok ()) ∧
    Migrator.reset db defs [] dr = ([Event.warnNoApplied], [], .ok ()) ∧
    Migrator.reset db2 defs2 (Migrator.reset db defs [] dr).2.1 dr2
      = ([Event.warnNoApplied], [], .ok ()) :=
  ⟨rfl, rfl, rfl⟩

/-- C10 (confirmed, implicit claim): `status` yields exactly one entry
per loaded definition, in load order, with that definition's id and
filename; an applied record whose id matches no loaded definition
produces no entry at all, so orphaned applied migrations are invisible
in the status output. -/
theorem C10_status_shape (defs : List Migration)
    (applied : List AppliedRecord) (orphan : AppliedRecord)
    (h : defs.all (fun m => !(m.id == orphan.id)) = true) :
    (Migrator.status defs applied).length = defs.length ∧
    (Migrator.status defs applied).map (fun s => (s.id, s.filename))
        = defs.map (fun m => (m.id, m.filename)) ∧
    (Migrator.status defs applied).all (fun s => !(s.id == orphan.id))
        = true := by
  refine ⟨by simp [Migrator.status], ?_, ?_⟩
  · simp only [Migrator.status, List.map_map]
    apply List.map_congr_left
    intro m hm
    cases hl : Migrator.appliedLookup applied m.id <;>
      simp [Function.comp, hl]
  · rw [List.all_eq_true]
    intro s hs
    rw [Migrator.status, List.mem_map] at hs
    obtain ⟨m, hm, rfl⟩ := hs
    have hm2 := List.all_eq_true.mp h m hm
    cases hl : Migrator.appliedLookup applied m.id <;> simpa [hl] using hm2

/-- C9 (confirmed): a recognized migration filename with no leading
digit run makes `extractMigrationId` fail with the FormatError whose
message contains the triggering filename; when such a file is the first
failing entry in processing order, `loadMigrations` aborts there — the
trace shows that only the files strictly before it were loaded, the
failing file and all later ones are never loaded, and an error (not a
partial list) is returned. -/
theorem C9_loadAll_format_error (entries : List FileEntry)
    (bad : FileEntry) (tl : List FileEntry)
    (hfirst : (FileSystemManager.sortedRecognized entries).dropWhile entryOk
        = bad :: tl)
    (hbad : FileSystemManager.leadingDigits bad.name = ("")) :
    FileSystemManager.extractMigrationId bad.name
        = .error (.formatError bad.name) ∧
    (∃ s t, errMessage (.formatError bad.name) = s ++ bad.name ++ t) ∧
    FileSystemManager.loadMigrations (some entries)
      = (((FileSystemManager.sortedRecognized entries).takeWhile
            entryOk).map (fun e => Event.loadFile e.name),
         .error (.formatError bad.name)) := by
  refine ⟨by
      simp only [FileSystemManager.extractMigrationId, hbad]
      rw [if_pos (by decide : ("").isEmpty = true)],
    ⟨("Invalid migration filename format: "),
     (". Expected format: 001_migration_name.ts"), rfl⟩, ?_⟩
  simp only [FileSystemManager.loadMigrations]
  exact loadGo_format_fail bad tl hbad _ hfirst

/-!
Witnesses: each theorem with a hypothesis applied at a concrete input.
-/

/-- Witness for C1's amended theorem: a concrete completing reset call
over one applied record that is skipped for lack of a definition. -/
theorem C1_reset_count_amended_witness :
    ([⟨("001"), ("001_a.cql"), some 5⟩] : List AppliedRecord) ≠ [] ∧
    (Migrator.reset (fun _ => true) []
        [⟨("001"), ("001_a.cql"), some 5⟩] false).2.2 = .ok () ∧
    (reportedResetCount (Migrator.reset (fun _ => true) []
          [⟨("001"), ("001_a.cql"), some 5⟩] false).1
        = some ([⟨("001"), ("001_a.cql"), some 5⟩]
            : List AppliedRecord).length ∧
      removeCount (Migrator.reset (fun _ => true) []
          [⟨("001"), ("001_a.cql"), some 5⟩] false).1
        = ([⟨("001"), ("001_a.cql"), some 5⟩]
            : List AppliedRecord).countP
            (fun r => (([] : List Migration).find?
                (fun m => m.id == r.id)).isSome)) :=
  ⟨by decide, by decide,
   C1_reset_count_amended (fun _ => true) []
     [⟨("001"), ("001_a.cql"), some 5⟩] (by decide) (by decide)⟩

/-- Witness for C5: a concrete `down` call over two applied records with
distinct timestamps and no loaded definitions. -/
theorem C5_down_target_witness :
    ([⟨("001"), ("f1"), some 1⟩, ⟨("002"), ("f2"), some 2⟩]
        : List AppliedRecord) ≠ [] ∧
    (∃ target rest,
      Migrator.sortAppliedDesc
          [⟨("001"), ("f1"), some 1⟩, ⟨("002"), ("f2"), some 2⟩]
        = target :: rest ∧
      target ∈ ([⟨("001"), ("f1"), some 1⟩, ⟨("002"), ("f2"), some 2⟩]
          : List AppliedRecord) ∧
      (∀ r ∈ ([⟨("001"), ("f1"), some 1⟩, ⟨("002"), ("f2"), some 2⟩]
          : List AppliedRecord),
        Migrator.appliedKey r ≤ Migrator.appliedKey target) ∧
      Migrator.down (fun _ => true) []
          [⟨("001"), ("f1"), some 1⟩, ⟨("002"), ("f2"), some 2⟩] false
        = (match ([] : List Migration).find?
              (fun m => m.id == target.id) with
           | none =>
             ([], [⟨("001"), ("f1"), some 1⟩, ⟨("002"), ("f2"), some 2⟩],
              .error (.notFound target.filename))
           | some m =>
             if scriptOk (fun _ => true) m.down then
               ((Migrator.splitStatements m.down).map Event.execStmt
                  ++ [Event.removeRecord m.id],
                Migrator.removeById
                  [⟨("001"), ("f1"), some 1⟩, ⟨("002"), ("f2"), some 2⟩]
                  m.id, .ok ())
             else
               (failTrace (fun _ => true) m.down,
                [⟨("001"), ("f1"), some 1⟩, ⟨("002"), ("f2"), some 2⟩],
                .error (.executionError
                  (failStmt (fun _ => true) m.down))))) :=
  ⟨by decide,
   C5_down_target (fun _ => true) []
     [⟨("001"), ("f1"), some 1⟩, ⟨("002"), ("f2"), some 2⟩] (by decide)⟩

/-- Witness for C6: a concrete `reset` call over one applied record with
no loaded definitions, which is skipped with a warning. -/
theorem C6_reset_order_witness :
    ([⟨("002"), ("002_b.cql"), some 7⟩] : List AppliedRecord) ≠ [] ∧
    ((Migrator.sortAppliedDesc [⟨("002"), ("002_b.cql"), some 7⟩]).Perm
        [⟨("002"), ("002_b.cql"), some 7⟩] ∧
     List.Sorted Migrator.appliedDescRel
       (Migrator.sortAppliedDesc [⟨("002"), ("002_b.cql"), some 7⟩]) ∧
     Migrator.reset (fun _ => true) []
         [⟨("002"), ("002_b.cql"), some 7⟩] false
       = (match (Migrator.sortAppliedDesc
             [⟨("002"), ("002_b.cql"), some 7⟩]).dropWhile
             (recOk (fun _ => true) []) with
          | [] =>
            (resetTraceFor (fun _ => true) []
                (Migrator.sortAppliedDesc
                  [⟨("002"), ("002_b.cql"), some 7⟩])
               ++ [Event.resetCompleted
                     (Migrator.sortAppliedDesc
                       [⟨("002"), ("002_b.cql"), some 7⟩]).length],
             resetRemovals []
               (Migrator.sortAppliedDesc [⟨("002"), ("002_b.cql"), some 7⟩])
               [⟨("002"), ("002_b.cql"), some 7⟩],
             .ok ())
          | bad :: _ =>
            (resetTraceFor (fun _ => true) []
                ((Migrator.sortAppliedDesc
                   [⟨("002"), ("002_b.cql"), some 7⟩]).takeWhile
                  (recOk (fun _ => true) []))
               ++ (recFailOut (fun _ => true) [] bad).1,
             resetRemovals []
               ((Migrator.sortAppliedDesc
                  [⟨("002"), ("002_b.cql"), some 7⟩]).takeWhile
                 (recOk (fun _ => true) []))
               [⟨("002"), ("002_b.cql"), some 7⟩],
             .error (recFailOut (fun _ => true) [] bad).2))) :=
  ⟨by decide,
   C6_reset_order (fun _ => true) []
     [⟨("002"), ("002_b.cql"), some 7⟩] (by decide)⟩

/-- Witness for C7: the round trip of a concrete one-statement migration
against an oracle accepting every statement. -/
theorem C7_round_trip_witness :
    scriptOk (fun _ => true)
        (⟨("1"), ("1_m.cql"), ("A"), ("B")⟩ : Migration).up = true ∧
    scriptOk (fun _ => true)
        (⟨("1"), ("1_m.cql"), ("A"), ("B")⟩ : Migration).down = true ∧
    ((Migrator.up (fun _ => true) (fun n => n)
        [⟨("1"), ("1_m.cql"), ("A"), ("B")⟩] [] false).2.2 = .ok () ∧
     (Migrator.status [⟨("1"), ("1_m.cql"), ("A"), ("B")⟩]
        (Migrator.up (fun _ => true) (fun n => n)
          [⟨("1"), ("1_m.cql"), ("A"), ("B")⟩] [] false).2.1).map
        (fun s => s.status) = [("applied")] ∧
     (Migrator.down (fun _ => true) [⟨("1"), ("1_m.cql"), ("A"), ("B")⟩]
        (Migrator.up (fun _ => true) (fun n => n)
          [⟨("1"), ("1_m.cql"), ("A"), ("B")⟩] [] false).2.1 false).2.2
        = .ok () ∧
     (Migrator.status [⟨("1"), ("1_m.cql"), ("A"), ("B")⟩]
        (Migrator.down (fun _ => true) [⟨("1"), ("1_m.cql"), ("A"), ("B")⟩]
          (Migrator.up (fun _ => true) (fun n => n)
            [⟨("1"), ("1_m.cql"), ("A"), ("B")⟩] [] false).2.1
          false).2.1).map (fun s => s.status) = [("pending")] ∧
     (Migrator.down (fun _ => true) [⟨("1"), ("1_m.cql"), ("A"), ("B")⟩]
        (Migrator.up (fun _ => true) (fun n => n)
          [⟨("1"), ("1_m.cql"), ("A"), ("B")⟩] [] false).2.1 false).2.1
        = []) :=
  ⟨by decide, by decide,
   C7_round_trip (fun _ => true) (fun n => n)
     ⟨("1"), ("1_m.cql"), ("A"), ("B")⟩ (by decide) (by decide)⟩

/-- Witness for C9: a directory with one recognized file whose name has
no leading digit run. -/
theorem C9_loadAll_format_error_witness :
    (FileSystemManager.sortedRecognized
        [⟨("abc.cql"), FileContent.text ("x")⟩]).dropWhile entryOk
      = [⟨("abc.cql"), FileContent.text ("x")⟩] ∧
    FileSystemManager.leadingDigits
        (⟨("abc.cql"), FileContent.text ("x")⟩ : FileEntry).name = ("") ∧
    (FileSystemManager.extractMigrationId
        (⟨("abc.cql"), FileContent.text ("x")⟩ : FileEntry).name
      = .error (.formatError
          (⟨("abc.cql"), FileContent.text ("x")⟩ : FileEntry).name) ∧
     (∃ s t, errMessage (.formatError
          (⟨("abc.cql"), FileContent.text ("x")⟩ : FileEntry).name)
        = s ++ (⟨("abc.cql"), FileContent.text ("x")⟩ : FileEntry).name
            ++ t) ∧
     FileSystemManager.loadMigrations
        (some [⟨("abc.cql"), FileContent.text ("x")⟩])
      = (((FileSystemManager.sortedRecognized
             [⟨("abc.cql"), FileContent.text ("x")⟩]).takeWhile
            entryOk).map (fun e => Event.loadFile e.name),
         .error (.formatError
           (⟨("abc.cql"), FileContent.text ("x")⟩ : FileEntry).name))) :=
  ⟨by decide, by decide,
   C9_loadAll_format_error [⟨("abc.cql"), FileContent.text ("x")⟩]
     ⟨("abc.cql"), FileContent.text ("x")⟩ [] (by decide) (by decide)⟩

/-- Witness for C10: one loaded definition and one orphaned applied
record whose id matches no definition. -/
theorem C10_status_shape_witness :
    ([⟨("001"), ("001_a.ts"), ("u"), ("d")⟩] : List Migration).all
        (fun m =>
          !(m.id == (⟨("999"), ("999_gone.cql"), some 3⟩
              : AppliedRecord).id)) = true ∧
    ((Migrator.status [⟨("001"), ("001_a.ts"), ("u"), ("d")⟩]
        [⟨("999"), ("999_gone.cql"), some 3⟩]).length
        = ([⟨("001"), ("001_a.ts"), ("u"), ("d")⟩] : List Migration).length ∧
     (Migrator.status [⟨("001"), ("001_a.ts"), ("u"), ("d")⟩]
        [⟨("999"), ("999_gone.cql"), some 3⟩]).map
        (fun s => (s.id, s.filename))
        = ([⟨("001"), ("001_a.ts"), ("u"), ("d")⟩] : List Migration).map
            (fun m => (m.id, m.filename)) ∧
     (Migrator.status [⟨("001"), ("001_a.ts"), ("u"), ("d")⟩]
        [⟨("999"), ("999_gone.cql"), some 3⟩]).all
        (fun s =>
          !(s.id == (⟨("999"), ("999_gone.cql"), some 3⟩
              : AppliedRecord).id)) = true) :=
  ⟨by decide,
   C10_status_shape [⟨("001"), ("001_a.ts"), ("u"), ("d")⟩]
     [⟨("999"), ("999_gone.cql"), some 3⟩]
     ⟨("999"), ("999_gone.cql"), some 3⟩ (by decide)⟩
